import Mathlib

/-!
Verification of the CSV ↔ Word copy-conversion workflow
(`figma_copy_workflow/helpers.py` and `parser.py`).

Python strings are modelled as Lean `String`, Python dicts (which preserve
insertion order) as ordered association lists `List (String × String)` with
first-match lookup and in-place update, and the python-docx document object
as an explicit tree of runs / paragraphs / cells / rows / tables.  Machine
details that the claims do not touch (colors, widths, fonts, file I/O) are
omitted; the text-level behaviour is translated statement by statement from
the source.
-/

namespace FigmaCopy

/-- Python `str.strip()` whitespace set (ASCII part): space, tab, newline,
carriage return, vertical tab, form feed. -/
def isPySpace (c : Char) : Bool :=
  c = ' ' || c = '\t' || c = '\n' || c = '\r' || c = '\x0b' || c = '\x0c'

def pyStripList (p : Char → Bool) (cs : List Char) : List Char :=
  ((cs.dropWhile p).reverse.dropWhile p).reverse

/-- Python `s.strip()` with no arguments. -/
def pyStrip (s : String) : String := ⟨pyStripList isPySpace s.data⟩

/-- The character set of `value.strip(' \t"')` used in `read_csv_data`. -/
def isCsvStripChar (c : Char) : Bool := c = ' ' || c = '\t' || c = '"'

/-- Python `s.strip(' \t"')`. -/
def cleanField (s : String) : String := ⟨pyStripList isCsvStripChar s.data⟩

/-- `pat.isPrefixOf` check at every suffix: Python substring test `pat in s`. -/
def containsSubAux (pat : List Char) : List Char → Bool
  | [] => pat.isEmpty
  | c :: rest => pat.isPrefixOf (c :: rest) || containsSubAux pat rest

/-- Python `pat in s` (contiguous substring containment). -/
def containsSub (s pat : String) : Bool := containsSubAux pat.data s.data

/-- Python `s.lower()` (ASCII model), over the character list. -/
def strToLower (s : String) : String := ⟨s.data.map Char.toLower⟩

/-- A CSV record / Python dict: ordered key–value pairs, unique keys,
first-match lookup. -/
abbrev Record := List (String × String)

/-- Python `d[k]` / `k in d`: value at the first matching key. -/
def dictGet (m : List (String × String)) (k : String) : Option String :=
  (m.find? (fun p => p.1 == k)).map (·.2)

/-- Python `d.get(k, dflt)`. -/
def dictGetD (m : List (String × String)) (k dflt : String) : String :=
  (dictGet m k).getD dflt

/-- Python `d[k] = v`: replace the value at the first matching key in place,
or append a new pair at the end (dict insertion order). -/
def dictSet : List (String × String) → String → String → List (String × String)
  | [], k, v => [(k, v)]
  | (k', v') :: rest, k, v =>
      if k' == k then (k', v) :: rest else (k', v') :: dictSet rest k v

/-- The in-repo cleaning stage of `read_csv_data` (`helpers.py` 27–34):
each key and value is stripped with `.strip(' \t"')`.  The `csv.DictReader`
byte-level parse is abstracted: the input is the list of raw parsed rows. -/
def cleanRow (row : Record) : Record :=
  row.map (fun p => (cleanField p.1, cleanField p.2))

def read_csv_clean (rows : List Record) : List Record := rows.map cleanRow

/-- `defaultdict(list)` append: extend the list of an existing group key or
append a fresh group at the end. -/
def addToGroup : List (String × List Record) → String → Record →
    List (String × List Record)
  | [], g, r => [(g, [r])]
  | (g', rs) :: rest, g, r =>
      if g' == g then (g', rs ++ [r]) :: rest
      else (g', rs) :: addToGroup rest g r

def groupStep (acc : List (String × List Record)) (row : Record) :
    List (String × List Record) :=
  let group := dictGetD row "group" "Unknown Group"
  if group ≠ "" && pyStrip group ≠ "" then addToGroup acc group row else acc

/-- `group_data_by_section` (`helpers.py` 39–48). -/
def group_data_by_section (data : List Record) : List (String × List Record) :=
  data.foldl groupStep []

/-! ## Document model (python-docx surface used by the code) -/

structure Run where
  text : String
  bold : Bool
  italic : Bool
deriving DecidableEq

structure Para where
  style : String
  runs : List Run
deriving DecidableEq

structure Cell where
  paras : List Para
deriving DecidableEq

structure Row where
  cells : List Cell
deriving DecidableEq

structure Table where
  rows : List Row
deriving DecidableEq

inductive DocElem where
  | para : Para → DocElem
  | table : Table → DocElem
deriving DecidableEq

structure Doc where
  body : List DocElem
deriving DecidableEq

/-- python-docx `paragraph.text`: concatenation of its runs' texts. -/
def paraText (p : Para) : String :=
  p.runs.foldl (fun acc r => acc ++ r.text) ""

/-- python-docx `cell.text`: paragraph texts joined with `"\n"`. -/
def cellText (c : Cell) : String :=
  match c.paras.map paraText with
  | [] => ""
  | t :: ts => ts.foldl (fun acc t' => acc ++ "\n" ++ t') t

/-- python-docx run-text write/read normalization: the run text setter
turns `'\r'` and `'\n'` into `<w:br/>` elements and `'\t'` into tab
elements; the text getter renders breaks as `'\n'` and tabs as `'\t'`.
Net effect of writing a string and reading it back: every `'\r'` becomes
`'\n'`, all other characters are preserved.  A `Run.text` field holds
what the getter returns, so building a run from caller text applies this
conversion. -/
def docxWriteText (s : String) : String :=
  ⟨s.data.map (fun c => if c = '\r' then '\n' else c)⟩

/-- `cell.text = s`: one paragraph holding one plain run (run text as the
getter will return it). -/
def cellOfText (s : String) : Cell :=
  ⟨[⟨"Normal", [⟨docxWriteText s, false, false⟩]⟩]⟩

/-- Header cells of the built table: runs are made bold (`helpers.py` 102–107). -/
def headerCell (s : String) : Cell :=
  ⟨[⟨"Normal", [⟨docxWriteText s, true, false⟩]⟩]⟩

def headerRow : Row := ⟨[headerCell "Label", headerCell "Text", headerCell "ID"]⟩

/-- One data row per record: Label, Text, ID (`helpers.py` 119–123). -/
def dataRow (r : Record) : Row :=
  ⟨[cellOfText (dictGetD r "layer_name" ""),
    cellOfText (dictGetD r "figma_text" ""),
    cellOfText (dictGetD r "id" "")]⟩

/-- `create_word_document` (`helpers.py` 60–145), text structure only:
a title paragraph, then per non-empty group a heading paragraph, a table
with a header row plus one data row per record, and a spacer paragraph.
Styling (colors, widths, shading, font sizes) carries no text content. -/
def create_word_document (grouped : List (String × List Record)) : Doc :=
  ⟨DocElem.para ⟨"Title", [⟨docxWriteText "Figma Copy Export", false, false⟩]⟩ ::
    grouped.flatMap (fun gr =>
      if gr.2.isEmpty then []
      else
        [DocElem.para ⟨"Heading 1", [⟨docxWriteText gr.1, false, false⟩]⟩,
         DocElem.table ⟨headerRow :: gr.2.map dataRow⟩,
         DocElem.para ⟨"Normal", []⟩])⟩

/-- `doc.tables`: the tables of the body in document order. -/
def docTables (d : Doc) : List Table :=
  d.body.filterMap (fun e =>
    match e with
    | .table t => some t
    | .para _ => none)

/-! ## Rich-text extractor (`_extract_formatted_text_from_cell`,
`helpers.py` 161–279 and its verbatim duplicate 366–475).

The hyperlink-detection walk (208–239) computes `hyperlink_url` that is
never used in the output, so it is omitted. -/

/-- Markdown emphasis wrapping of one run (`helpers.py` 241–247). -/
def formatRun (r : Run) : String :=
  if r.bold && r.italic then "***" ++ r.text ++ "***"
  else if r.bold then "**" ++ r.text ++ "**"
  else if r.italic then "*" ++ r.text ++ "*"
  else r.text

/-- `para_text and para_text[-1] in ['*', ')']` — the accumulated text ends
in `*` or `)` (false on the empty string). -/
def endsInMark (s : String) : Bool :=
  match s.data.getLast? with
  | some c => c = '*' || c = ')'
  | none => false

/-- `run_text.startswith(('*', '['))`. -/
def startsInMark (s : String) : Bool :=
  match s.data.head? with
  | some c => c = '*' || c = '['
  | none => false

/-- One step of the run loop (`helpers.py` 200–253, formatting branch):
skip empty raw run text, wrap with emphasis markers, insert a guard space
when markers would collide. -/
def runStep (acc : String) (r : Run) : String :=
  if r.text = "" then acc
  else
    let rt := formatRun r
    let sep := if endsInMark acc && startsInMark rt then " " else ""
    acc ++ sep ++ rt

/-- The `para_text` accumulated over a paragraph's runs. -/
def accumRuns (runs : List Run) : String := runs.foldl runStep ""

/-- `text.startswith(('•', '-', '*'))`. -/
def startsWithBullet (s : String) : Bool :=
  match s.data.head? with
  | some c => c = '•' || c = '-' || c = '*'
  | none => false

def isAsciiDigit (c : Char) : Bool := '0' ≤ c && c ≤ '9'

def isAsciiLetter (c : Char) : Bool :=
  ('a' ≤ c && c ≤ 'z') || ('A' ≤ c && c ≤ 'Z')

def isRomanChar (c : Char) : Bool :=
  ['i', 'v', 'x', 'l', 'c', 'd', 'm'].contains c.toLower

def isDotOrParen (c : Char) : Bool := c = '.' || c = ')'

/-- `re.match(r'^(\d+[.)]|[a-zA-Z][.)]|[ivxlcdm]+[.)]|[IVXLCDM]+[.)])\s', text,
re.IGNORECASE)` returning `match.group(1)` (`helpers.py` 193–198).

Alternatives are tried left to right as the regex engine does.  For the
greedy `\d+` / `[ivxlcdm]+` runs only the maximal run can succeed, because
a shorter prefix is necessarily followed by another character of the same
class, which is neither `.` nor `)`.  Under IGNORECASE the fourth
alternative `[IVXLCDM]+[.)]` is identical to the third and is subsumed.
`\d`, `[a-zA-Z]` and `\s` are modelled over ASCII. -/
def matchNumberedMarker (t : String) : Option String :=
  let cs := t.data
  let digits := cs.takeWhile isAsciiDigit
  let alt1 : Option String :=
    if digits.isEmpty then none
    else
      match cs.drop digits.length with
      | p :: s :: _ =>
          if isDotOrParen p && isPySpace s then some ⟨digits ++ [p]⟩ else none
      | _ => none
  match alt1 with
  | some m => some m
  | none =>
    let alt2 : Option String :=
      match cs with
      | a :: p :: s :: _ =>
          if isAsciiLetter a && isDotOrParen p && isPySpace s then
            some ⟨[a, p]⟩
          else none
      | _ => none
    match alt2 with
    | some m => some m
    | none =>
      let romans := cs.takeWhile isRomanChar
      if romans.isEmpty then none
      else
        match cs.drop romans.length with
        | p :: s :: _ =>
            if isDotOrParen p && isPySpace s then some ⟨romans ++ [p]⟩
            else none
        | _ => none

/-- List classification of a paragraph (`helpers.py` 180–198), from the raw
`para.text`: returns `(is_list_item, is_numbered_list, list_marker)`. -/
def classifyPara (p : Para) : Bool × Bool × String :=
  let t := pyStrip (paraText p)
  if t = "" then (false, false, "")
  else if startsWithBullet t then (true, false, ⟨t.data.take 1⟩)
  else if t.length > 2 then
    match matchNumberedMarker t with
    | some m => (true, true, m)
    | none => (false, false, "")
  else (false, false, "")

/-- List-marker normalization of the assembled paragraph text
(`helpers.py` 256–270). -/
def adjustListPara (isList isNum : Bool) (marker para_text : String) : String :=
  if isList then
    let clean := pyStrip para_text
    if isNum then
      let clean2 :=
        if marker.data.isPrefixOf clean.data then
          pyStrip ⟨clean.data.drop marker.data.length⟩
        else clean
      marker ++ " " ++ clean2
    else
      let clean2 :=
        if startsWithBullet clean then pyStrip ⟨clean.data.drop 1⟩ else clean
      "- " ++ clean2
  else para_text

/-- The fully adjusted text a paragraph contributes (before joining). -/
def paraRendered (p : Para) : String :=
  let c := classifyPara p
  adjustListPara c.1 c.2.1 c.2.2 (accumRuns p.runs)

/-- `para_text.startswith('- ')`. -/
def startsWithDash (s : String) : Bool := ['-', ' '].isPrefixOf s.data

/-- One step of the paragraph loop (`helpers.py` 177–277): paragraphs whose
assembled text is blank are dropped; list items are joined with `"\n"`,
other paragraphs with a single space. -/
def paraStep (formatted : String) (p : Para) : String :=
  if pyStrip (accumRuns p.runs) ≠ "" then
    let pt := paraRendered p
    let sep :=
      if formatted ≠ "" then
        if startsWithDash pt || (classifyPara p).2.1 then "\n" else " "
      else ""
    formatted ++ sep ++ pt
  else formatted

/-- Formatted cell extraction (formatting preserved). -/
def extractCellFormatted (c : Cell) : String :=
  pyStrip (c.paras.foldl paraStep "")

/-- `_extract_formatted_text_from_cell`: plain `cell.text.strip()` when
formatting is disabled, otherwise the Markdown rendering. -/
def extractCell (preserve : Bool) (c : Cell) : String :=
  if preserve then extractCellFormatted c else pyStrip (cellText c)

/-! ## Reverse path: `read_word_document_data` and the reconciler -/

/-- One data row of the scan (`helpers.py` 284–294): rows with at least
three cells whose trimmed ID cell is non-empty insert (last-write-wins)
the extracted Text-cell content under the ID. -/
def rowStep (preserve : Bool) (m : List (String × String)) (row : Row) :
    List (String × String) :=
  if row.cells.length ≥ 3 then
    let text := extractCell preserve (row.cells.getD 1 ⟨[]⟩)
    let id_value := pyStrip (cellText (row.cells.getD 2 ⟨[]⟩))
    if id_value ≠ "" then dictSet m id_value text else m
  else m

/-- `read_word_document_data` (`helpers.py` 148–296): scan every table,
skip row 0 of each, build the id → text map. -/
def read_word_document_data (d : Doc) (preserve : Bool) :
    List (String × String) :=
  (docTables d).foldl (fun m t => (t.rows.drop 1).foldl (rowStep preserve) m) []

/-- The data rows the scan visits, in scan order (row index ≥ 1 per table). -/
def scanRows (d : Doc) : List Row :=
  (docTables d).flatMap (fun t => t.rows.drop 1)

/-- Per-row reconciliation (`helpers.py` 312–323): copy the row; if its
trimmed id is a key of the update map, overwrite `figma_text`. -/
def updateRow (updates : List (String × String)) (row : Record) : Record :=
  let row_id := pyStrip (dictGetD row "id" "")
  match dictGet updates row_id with
  | some v => dictSet row "figma_text" v
  | none => row

/-- `update_csv_with_word_changes` (`helpers.py` 299–325). -/
def update_csv_with_word_changes (data : List Record)
    (updates : List (String × String)) : List Record :=
  data.map (updateRow updates)

/-! ## `write_csv_data` -/

/-- `csv.DictWriter.writerow`: a row with a key outside the field names
raises `ValueError`; missing keys use the empty rest value. -/
def writeRowOut (fieldnames : List String) (r : Record) :
    Except String (List String) :=
  if r.all (fun p => fieldnames.contains p.1) then
    Except.ok (fieldnames.map (fun k => dictGetD r k ""))
  else Except.error "dict contains fields not in fieldnames"

/-- `write_csv_data` (`helpers.py` 328–344): empty input raises
`ValueError("No data to write to CSV")`; otherwise the header is the first
record's key list and each record becomes one line.  CSV quoting and file
I/O are abstracted: the result is the header plus the field-value rows. -/
def write_csv_data (csv_data : List Record) :
    Except String (List String × List (List String)) :=
  if csv_data.isEmpty then Except.error "No data to write to CSV"
  else
    let fieldnames := (csv_data.headD []).map Prod.fst
    (csv_data.mapM (writeRowOut fieldnames)).map (fun rows => (fieldnames, rows))

/-! ## Schema inference: `extract_word_document_to_csv_format`
(`helpers.py` 347–574) -/

/-- The ID-shape heuristic (`helpers.py` 531–533 / 538–540): non-empty,
contains one of the marker characters or substrings, and longer than 10.
Python `char in text` is substring containment, so the two-character
entries `'I2016'` and `'I-'` are substring tests. -/
def looksLikeId (s : String) : Bool :=
  s.length > 0 &&
    (containsSub s ":" || containsSub s ";" || containsSub s "I2016" ||
      containsSub s "I-" || containsSub s "_" || containsSub s "-") &&
    s.length > 10

/-- Header-row vocabulary test (`helpers.py` 505–518) on
`cell.text.strip().lower()` per cell. -/
def rowIsHeader (row : Row) : Bool :=
  let cellTexts := row.cells.map (fun c => strToLower (pyStrip (cellText c)))
  (row.cells.length = 3 &&
      (cellTexts.getD 0 "" = "label" || cellTexts.getD 0 "" = "component") &&
      (cellTexts.getD 1 "" = "text" || cellTexts.getD 1 "" = "description") &&
      cellTexts.getD 2 "" = "id") ||
    (row.cells.length = 2 &&
      (cellTexts.getD 0 "" = "label" || cellTexts.getD 0 "" = "component") &&
      (cellTexts.getD 1 "" = "text" || cellTexts.getD 1 "" = "description"))

/-- `f"generated_{len(csv_data) + 1}"`. -/
def genId (acc : List Record) : String :=
  "generated_" ++ toString (acc.length + 1)

/-- The record dict literal of `helpers.py` 565–571, in insertion order. -/
def mkInferredRec (idv cur ln fg : String) : Record :=
  [("id", idv), ("frame", cur), ("group", cur),
   ("layer_name", if pyStrip ln ≠ "" then ln else "Content"),
   ("figma_text", fg)]

/-- `helpers.py` 563–571: append the record only when the extracted
`figma_text` is non-empty after trimming. -/
def emitRow (cur : String) (acc : List Record) (ln fg idv : String) :
    List Record :=
  if pyStrip fg ≠ "" then acc ++ [mkInferredRec idv cur ln fg] else acc

/-- One table row of the inference scan (`helpers.py` 498–571).  Rows with
fewer than two cells fall outside the `len(cells) >= 2` guard and are
skipped entirely. -/
def processRow (preserve : Bool) (cur : String) (acc : List Record)
    (row : Row) : List Record :=
  let cells := row.cells
  if cells.length ≥ 2 then
    if rowIsHeader row then acc
    else if cells.length = 3 then
      let col1 := extractCell preserve (cells.getD 0 ⟨[]⟩)
      let col2 := extractCell preserve (cells.getD 1 ⟨[]⟩)
      let col3 := extractCell preserve (cells.getD 2 ⟨[]⟩)
      if looksLikeId col3 then emitRow cur acc col1 col2 col3
      else if looksLikeId col1 then emitRow cur acc col2 col3 col1
      else
        emitRow cur acc col1 col2
          (if pyStrip col3 ≠ "" then col3 else genId acc)
    else if cells.length = 2 then
      emitRow cur acc (extractCell preserve (cells.getD 0 ⟨[]⟩))
        (extractCell preserve (cells.getD 1 ⟨[]⟩)) (genId acc)
    else
      emitRow cur acc "Content" (extractCell preserve (cells.getD 0 ⟨[]⟩))
        (genId acc)
  else acc

/-- One body element of the document walk (`helpers.py` 478–572):
paragraphs whose style name contains `heading` or `title` and whose
trimmed text is non-empty update the current section; tables are scanned
row by row. -/
def walkStep (preserve : Bool) (st : String × List Record) (e : DocElem) :
    String × List Record :=
  match e with
  | .para p =>
      let style := strToLower p.style
      if containsSub style "heading" || containsSub style "title" then
        let t := pyStrip (paraText p)
        if t ≠ "" then (t, st.2) else st
      else st
  | .table t => (st.1, t.rows.foldl (processRow preserve st.1) st.2)

/-- `extract_word_document_to_csv_format` (`helpers.py` 347–574). -/
def extract_word_document_to_csv_format (d : Doc) (preserve : Bool) :
    List Record :=
  (d.body.foldl (walkStep preserve) ("General Content", [])).2

/-! ## Spec-worded definitions (used only to state claims) -/

/-- Modelled from the spec: a character carrying Markdown markup meaning in
the restricted dialect of §4.2 (emphasis asterisks and underscores, bullet
markers, link brackets and parentheses, heading hash). -/
def markdownSignificant (c : Char) : Bool :=
  ['*', '_', '•', '-', '[', ']', '(', ')', '#'].contains c

/-- A string free of Markdown-significant characters. -/
def noMarkdownChars (s : String) : Bool := s.data.all (fun c => !markdownSignificant c)

/-- Modelled from the spec (claim C3 wording): the emphasis wrapping of a
run — `bold+italic` → triple asterisk, bold → double, italic → single,
neither → unmodified. -/
def wrapRunSpec (r : Run) : String :=
  match r.bold, r.italic with
  | true, true => "***" ++ r.text ++ "***"
  | true, false => "**" ++ r.text ++ "**"
  | false, true => "*" ++ r.text ++ "*"
  | false, false => r.text

/-! ## Helper lemmas -/

theorem dictGet_cons (a b : String) (l : List (String × String)) (k : String) :
    dictGet ((a, b) :: l) k = if a = k then some b else dictGet l k := by
  by_cases h : a = k
  · have hb : ((a, b).1 == k) = true := beq_iff_eq.mpr h
    simp [dictGet, List.find?, hb, h]
  · have hb : ((a, b).1 == k) = false := beq_eq_false_iff_ne.mpr h
    simp [dictGet, List.find?, hb, h]

theorem dictGet_dictSet_self (m : List (String × String)) (k v : String) :
    dictGet (dictSet m k v) k = some v := by
  induction m with
  | nil => simp [dictGet, dictSet, List.find?]
  | cons p rest ih =>
      obtain ⟨a, b⟩ := p
      by_cases h : a = k
      · simp [dictSet, h, dictGet_cons]
      · simp only [dictSet, beq_iff_eq, h, if_false]
        rw [dictGet_cons, if_neg h]
        exact ih

theorem dictGet_dictSet_ne (m : List (String × String)) (k v k' : String)
    (h : k' ≠ k) : dictGet (dictSet m k v) k' = dictGet m k' := by
  have hne : k ≠ k' := fun hh => h hh.symm
  induction m with
  | nil =>
      show dictGet [(k, v)] k' = dictGet [] k'
      rw [dictGet_cons, if_neg hne]
  | cons p rest ih =>
      obtain ⟨a, b⟩ := p
      by_cases ha : a = k
      · subst ha
        simp only [dictSet, beq_self_eq_true, if_true]
        rw [dictGet_cons, dictGet_cons, if_neg hne, if_neg hne]
      · simp only [dictSet, beq_iff_eq, ha, if_false]
        rw [dictGet_cons, dictGet_cons]
        by_cases hk : a = k' <;> simp [hk, ih]

theorem mem_dictSet (m : List (String × String)) (k v : String)
    (p : String × String) (hp : p ∈ dictSet m k v) :
    p ∈ m ∨ p = (k, v) := by
  induction m with
  | nil => simp [dictSet] at hp; simp [hp]
  | cons q rest ih =>
      obtain ⟨a, b⟩ := q
      by_cases ha : a = k
      · subst ha
        simp only [dictSet, beq_self_eq_true, if_true] at hp
        rcases List.mem_cons.mp hp with h | h
        · subst h; right; rfl
        · left; exact List.mem_cons_of_mem _ h
      · simp only [dictSet, beq_iff_eq, ha, if_false] at hp
        rcases List.mem_cons.mp hp with h | h
        · subst h; left; exact List.mem_cons_self _ _
        · rcases ih h with h' | h'
          · left; exact List.mem_cons_of_mem _ h'
          · right; exact h'

theorem pyStrip_empty : pyStrip "" = "" := rfl

theorem ne_empty_of_pyStrip_ne_empty {s : String} (h : pyStrip s ≠ "") :
    s ≠ "" := by
  intro hs; exact h (hs ▸ pyStrip_empty)

theorem foldl_preserve {α β : Type} (f : β → α → β) (P : β → Prop) :
    ∀ (l : List α) (b : β), P b → (∀ b' a, a ∈ l → P b' → P (f b' a)) →
      P (l.foldl f b) := by
  intro l
  induction l with
  | nil => intro b hb _; exact hb
  | cons a l ih =>
      intro b hb hf
      exact ih (f b a) (hf b a (List.mem_cons_self _ _) hb)
        (fun b' x hx => hf b' x (List.mem_cons_of_mem _ hx))

/-! ## C2: the reconciler is a pure frame-preserving map -/

theorem getD_map_updateRow (updates : List (String × String))
    (data : List Record) (i : Nat) (hi : i < data.length) :
    (update_csv_with_word_changes data updates).getD i [] =
      updateRow updates (data.getD i []) := by
  unfold update_csv_with_word_changes
  rw [List.getD_eq_getElem?_getD, List.getD_eq_getElem?_getD,
    List.getElem?_map, List.getElem?_eq_getElem hi]
  rfl

/-- C2: `update_csv_with_word_changes` returns a sequence of the same
length in the same order, never fails (it is a total function), never
changes any field other than `figma_text` (unknown pass-through columns
included), leaves a record untouched when its trimmed id has no update,
and replaces `figma_text` with the mapped value when it does. -/
theorem update_csv_frame_properties (data : List Record)
    (updates : List (String × String)) :
    (update_csv_with_word_changes data updates).length = data.length ∧
    ∀ i, i < data.length →
      (∀ k, k ≠ "figma_text" →
        dictGet ((update_csv_with_word_changes data updates).getD i []) k =
          dictGet (data.getD i []) k) ∧
      (dictGet updates (pyStrip (dictGetD (data.getD i []) "id" "")) = none →
        (update_csv_with_word_changes data updates).getD i [] =
          data.getD i []) ∧
      (∀ v,
        dictGet updates (pyStrip (dictGetD (data.getD i []) "id" "")) = some v →
        dictGet ((update_csv_with_word_changes data updates).getD i [])
          "figma_text" = some v) := by
  constructor
  · exact List.length_map _ _
  · intro i hi
    rw [getD_map_updateRow updates data i hi]
    set row := data.getD i [] with hrow
    cases hcase : dictGet updates (pyStrip (dictGetD row "id" "")) with
    | none =>
        have hup : updateRow updates row = row := by
          show (match dictGet updates (pyStrip (dictGetD row "id" "")) with
            | some v => dictSet row "figma_text" v
            | none => row) = row
          rw [hcase]
        rw [hup]
        exact ⟨fun k _ => rfl, fun _ => rfl, fun v hv => by cases hv⟩
    | some v =>
        have hup : updateRow updates row = dictSet row "figma_text" v := by
          show (match dictGet updates (pyStrip (dictGetD row "id" "")) with
            | some v => dictSet row "figma_text" v
            | none => row) = dictSet row "figma_text" v
          rw [hcase]
        rw [hup]
        refine ⟨fun k hk => dictGet_dictSet_ne row "figma_text" v k hk,
          fun hnone => ?_, fun v' hv' => ?_⟩
        · cases hnone
        · cases hv'
          exact dictGet_dictSet_self row "figma_text" v

theorem update_csv_frame_properties_witness :
    (0 : Nat) < 1 ∧
    dictGet ((update_csv_with_word_changes
        [[("id", "a1"), ("figma_text", "x")]] [("a1", "y")]).getD 0 [])
      "figma_text" = some "y" :=
  ⟨by decide,
    ((update_csv_frame_properties [[("id", "a1"), ("figma_text", "x")]]
        [("a1", "y")]).2 0 (by decide)).2.2 "y" (by decide)⟩

/-! ## C3: run-level Markdown emission -/

/-- C3: with formatting enabled, every run with non-empty text is emitted
wrapped according to its bold/italic flags, and one guard space is
inserted before it exactly when the accumulated paragraph text ends in
`*` or `)` and the emitted run text starts with `*` or `[`. -/
theorem run_formatting_emission :
    (∀ r : Run, formatRun r = wrapRunSpec r) ∧
    ∀ (runs : List Run) (r : Run), r.text ≠ "" →
      accumRuns (runs ++ [r]) =
        accumRuns runs ++
          (if endsInMark (accumRuns runs) && startsInMark (wrapRunSpec r)
            then " " else "") ++ wrapRunSpec r := by
  have hwrap : ∀ r : Run, formatRun r = wrapRunSpec r := by
    intro r
    cases hb : r.bold <;> cases hi : r.italic <;>
      simp [formatRun, wrapRunSpec, hb, hi]
  refine ⟨hwrap, fun runs r h => ?_⟩
  have hsnoc : accumRuns (runs ++ [r]) = runStep (accumRuns runs) r := by
    unfold accumRuns
    rw [List.foldl_append]
    rfl
  rw [hsnoc]
  show (if r.text = "" then accumRuns runs
    else accumRuns runs ++
      (if endsInMark (accumRuns runs) && startsInMark (formatRun r)
        then " " else "") ++ formatRun r) = _
  rw [if_neg h, hwrap r]

theorem run_formatting_emission_witness :
    accumRuns [⟨"a", true, false⟩, ⟨"b", false, true⟩] = "**a** *b*" :=
  (run_formatting_emission.2 [⟨"a", true, false⟩] ⟨"b", false, true⟩
    (by decide)).trans (by decide)

/-! ## C5 / C6 / C10: schema-inference row processing -/

theorem emitRow_cases (cur : String) (acc : List Record) (ln fg idv : String) :
    emitRow cur acc ln fg idv = acc ∨
      emitRow cur acc ln fg idv = acc ++ [mkInferredRec idv cur ln fg] := by
  unfold emitRow
  by_cases h : pyStrip fg ≠ ""
  · right; rw [if_pos h]
  · left; rw [if_neg h]

theorem rowIsHeader_false_of_ge_four (row : Row)
    (h : row.cells.length ≥ 4) : rowIsHeader row = false := by
  unfold rowIsHeader
  have h3 : decide (row.cells.length = 3) = false := decide_eq_false (by omega)
  have h2 : decide (row.cells.length = 2) = false := decide_eq_false (by omega)
  simp [h3, h2]

/-- C5: every row that synthesizes an ID receives `generated_<k>` with `k`
one plus the number of records already emitted, at each of the three
synthesize sites — a 2-column row (`helpers.py` 555), a 3-column
non-ID-shaped row whose third cell trims to empty (`helpers.py` 549), and
a row of any other scanned column count, i.e. ≥ 4 cells (`helpers.py`
561); header rows and skipped rows leave the emitted list (and hence the
counter) unchanged, and every row appends at most one record, so the
counter is shared and monotone across all tables of a document scan. -/
theorem generated_id_counter :
    (∀ (preserve : Bool) (cur : String) (acc : List Record) (row : Row),
      row.cells.length = 2 → rowIsHeader row = false →
      pyStrip (extractCell preserve (row.cells.getD 1 ⟨[]⟩)) ≠ "" →
      processRow preserve cur acc row =
        acc ++ [mkInferredRec ("generated_" ++ toString (acc.length + 1)) cur
          (extractCell preserve (row.cells.getD 0 ⟨[]⟩))
          (extractCell preserve (row.cells.getD 1 ⟨[]⟩))]) ∧
    (∀ (preserve : Bool) (cur : String) (acc : List Record) (row : Row),
      row.cells.length = 3 → rowIsHeader row = false →
      looksLikeId (extractCell preserve (row.cells.getD 2 ⟨[]⟩)) = false →
      looksLikeId (extractCell preserve (row.cells.getD 0 ⟨[]⟩)) = false →
      pyStrip (extractCell preserve (row.cells.getD 2 ⟨[]⟩)) = "" →
      pyStrip (extractCell preserve (row.cells.getD 1 ⟨[]⟩)) ≠ "" →
      processRow preserve cur acc row =
        acc ++ [mkInferredRec ("generated_" ++ toString (acc.length + 1)) cur
          (extractCell preserve (row.cells.getD 0 ⟨[]⟩))
          (extractCell preserve (row.cells.getD 1 ⟨[]⟩))]) ∧
    (∀ (preserve : Bool) (cur : String) (acc : List Record) (row : Row),
      row.cells.length ≥ 4 →
      pyStrip (extractCell preserve (row.cells.getD 0 ⟨[]⟩)) ≠ "" →
      processRow preserve cur acc row =
        acc ++ [mkInferredRec ("generated_" ++ toString (acc.length + 1)) cur
          "Content" (extractCell preserve (row.cells.getD 0 ⟨[]⟩))]) ∧
    (∀ (preserve : Bool) (cur : String) (acc : List Record) (row : Row),
      rowIsHeader row = true → row.cells.length ≥ 2 →
      processRow preserve cur acc row = acc) ∧
    (∀ (preserve : Bool) (cur : String) (acc : List Record) (row : Row),
      processRow preserve cur acc row = acc ∨
        ∃ nr, processRow preserve cur acc row = acc ++ [nr]) := by
  refine ⟨?_, ?_, ?_, ?_, ?_⟩
  · intro preserve cur acc row h2 hh hfg
    unfold processRow
    rw [if_pos (show row.cells.length ≥ 2 by omega),
      if_neg (show ¬ rowIsHeader row = true by simp [hh]),
      if_neg (show ¬ row.cells.length = 3 by omega), if_pos h2]
    unfold emitRow genId
    rw [if_pos hfg]
  · intro preserve cur acc row h3 hh hl3 hl1 h30 hfg
    unfold processRow
    rw [if_pos (show row.cells.length ≥ 2 by omega),
      if_neg (show ¬ rowIsHeader row = true by simp [hh]), if_pos h3,
      if_neg (show ¬ looksLikeId (extractCell preserve
        (row.cells.getD 2 ⟨[]⟩)) = true by rw [hl3]; exact Bool.false_ne_true),
      if_neg (show ¬ looksLikeId (extractCell preserve
        (row.cells.getD 0 ⟨[]⟩)) = true by rw [hl1]; exact Bool.false_ne_true),
      if_neg (not_not_intro h30)]
    unfold emitRow genId
    rw [if_pos hfg]
  · intro preserve cur acc row h4 hfg
    unfold processRow
    rw [if_pos (show row.cells.length ≥ 2 by omega),
      if_neg (show ¬ rowIsHeader row = true by
        simp [rowIsHeader_false_of_ge_four row h4]),
      if_neg (show ¬ row.cells.length = 3 by omega),
      if_neg (show ¬ row.cells.length = 2 by omega)]
    unfold emitRow genId
    rw [if_pos hfg]
  · intro preserve cur acc row hh h2
    unfold processRow
    rw [if_pos h2, if_pos hh]
  · intro preserve cur acc row
    unfold processRow
    by_cases hge : row.cells.length ≥ 2
    · rw [if_pos hge]
      by_cases hh : rowIsHeader row = true
      · rw [if_pos hh]; exact Or.inl rfl
      · rw [if_neg hh]
        by_cases h3 : row.cells.length = 3
        · rw [if_pos h3]
          by_cases hid3 : looksLikeId (extractCell preserve (row.cells.getD 2 ⟨[]⟩)) = true
          · rw [if_pos hid3]
            rcases emitRow_cases cur acc (extractCell preserve (row.cells.getD 0 ⟨[]⟩))
              (extractCell preserve (row.cells.getD 1 ⟨[]⟩))
              (extractCell preserve (row.cells.getD 2 ⟨[]⟩)) with h | h
            · exact Or.inl h
            · exact Or.inr ⟨_, h⟩
          · rw [if_neg hid3]
            by_cases hid1 : looksLikeId (extractCell preserve (row.cells.getD 0 ⟨[]⟩)) = true
            · rw [if_pos hid1]
              rcases emitRow_cases cur acc (extractCell preserve (row.cells.getD 1 ⟨[]⟩))
                (extractCell preserve (row.cells.getD 2 ⟨[]⟩))
                (extractCell preserve (row.cells.getD 0 ⟨[]⟩)) with h | h
              · exact Or.inl h
              · exact Or.inr ⟨_, h⟩
            · rw [if_neg hid1]
              rcases emitRow_cases cur acc (extractCell preserve (row.cells.getD 0 ⟨[]⟩))
                (extractCell preserve (row.cells.getD 1 ⟨[]⟩))
                (if pyStrip (extractCell preserve (row.cells.getD 2 ⟨[]⟩)) ≠ ""
                  then extractCell preserve (row.cells.getD 2 ⟨[]⟩) else genId acc) with h | h
              · exact Or.inl h
              · exact Or.inr ⟨_, h⟩
        · rw [if_neg h3]
          by_cases h2 : row.cells.length = 2
          · rw [if_pos h2]
            rcases emitRow_cases cur acc (extractCell preserve (row.cells.getD 0 ⟨[]⟩))
              (extractCell preserve (row.cells.getD 1 ⟨[]⟩)) (genId acc) with h | h
            · exact Or.inl h
            · exact Or.inr ⟨_, h⟩
          · rw [if_neg h2]
            rcases emitRow_cases cur acc "Content"
              (extractCell preserve (row.cells.getD 0 ⟨[]⟩)) (genId acc) with h | h
            · exact Or.inl h
            · exact Or.inr ⟨_, h⟩
    · rw [if_neg hge]; exact Or.inl rfl

theorem generated_id_counter_witness :
    processRow true "General Content" [] ⟨[cellOfText "Lbl", cellOfText "Txt"]⟩ =
      [mkInferredRec "generated_1" "General Content" "Lbl" "Txt"] ∧
    processRow true "General Content"
        [mkInferredRec "generated_1" "General Content" "Lbl" "Txt"]
        ⟨[cellOfText "Lbl3", cellOfText "Txt3", cellOfText ""]⟩ =
      [mkInferredRec "generated_1" "General Content" "Lbl" "Txt",
       mkInferredRec "generated_2" "General Content" "Lbl3" "Txt3"] ∧
    processRow true "General Content"
        [mkInferredRec "generated_1" "General Content" "Lbl" "Txt",
         mkInferredRec "generated_2" "General Content" "Lbl3" "Txt3"]
        ⟨[cellOfText "A", cellOfText "B", cellOfText "C", cellOfText "D"]⟩ =
      [mkInferredRec "generated_1" "General Content" "Lbl" "Txt",
       mkInferredRec "generated_2" "General Content" "Lbl3" "Txt3",
       mkInferredRec "generated_3" "General Content" "Content" "A"] :=
  ⟨(generated_id_counter.1 true "General Content" []
      ⟨[cellOfText "Lbl", cellOfText "Txt"]⟩ (by decide) (by decide)
      (by decide)).trans (by decide),
   (generated_id_counter.2.1 true "General Content"
      [mkInferredRec "generated_1" "General Content" "Lbl" "Txt"]
      ⟨[cellOfText "Lbl3", cellOfText "Txt3", cellOfText ""]⟩ (by decide)
      (by decide) (by decide) (by decide) (by decide)
      (by decide)).trans (by decide),
   (generated_id_counter.2.2.1 true "General Content"
      [mkInferredRec "generated_1" "General Content" "Lbl" "Txt",
       mkInferredRec "generated_2" "General Content" "Lbl3" "Txt3"]
      ⟨[cellOfText "A", cellOfText "B", cellOfText "C", cellOfText "D"]⟩
      (by decide) (by decide)).trans (by decide)⟩

/-- C6: the scan skips rows with fewer than two cells outright
(`if len(cells) >= 2`, `helpers.py` 504), so a single-cell row whose first
cell holds non-blank text is never emitted, although the branch comment
(`helpers.py` 558) and the spec say its first cell should become
`figma_text` with `layer_name` `"Content"`. -/
theorem single_cell_row_skipped :
    extract_word_document_to_csv_format
        ⟨[DocElem.table ⟨[⟨[cellOfText "hello"]⟩]⟩]⟩ true = [] ∧
    pyStrip "hello" ≠ "" := by decide

/-! ## C7: `write_csv_data` -/

theorem mapM_writeRowOut_ok (fieldnames : List String) :
    ∀ l : List Record,
      (∀ r ∈ l, ∀ p ∈ r, fieldnames.contains p.1 = true) →
      l.mapM (writeRowOut fieldnames) =
        Except.ok (l.map (fun r => fieldnames.map (fun k => dictGetD r k ""))) := by
  intro l
  induction l with
  | nil => intro _; rfl
  | cons r rest ih =>
      intro h
      have hr : writeRowOut fieldnames r =
          Except.ok (fieldnames.map (fun k => dictGetD r k "")) := by
        unfold writeRowOut
        rw [if_pos]
        rw [List.all_eq_true]
        exact fun p hp => h r (List.mem_cons_self _ _) p hp
      rw [List.mapM_cons, hr, ih (fun r' hr' p hp => h r' (List.mem_cons_of_mem _ hr') p hp)]
      rfl

theorem write_csv_extra_keys_cex :
    write_csv_data [[("a", "1")], [("a", "1"), ("b", "2")]] =
      Except.error "dict contains fields not in fieldnames" := rfl

/-- C7 (amended): an empty record sequence fails with the validation
error; a non-empty sequence whose records carry no key outside the first
record's key set yields the first record's keys as header, in order,
followed by one value line per record. -/
theorem write_csv_header_and_rows (data : List Record) :
    (data = [] → write_csv_data data = Except.error "No data to write to CSV") ∧
    (data ≠ [] →
      (∀ r ∈ data, ∀ p ∈ r, ((data.headD []).map Prod.fst).contains p.1 = true) →
      write_csv_data data =
        Except.ok ((data.headD []).map Prod.fst,
          data.map (fun r =>
            ((data.headD []).map Prod.fst).map (fun k => dictGetD r k "")))) := by
  constructor
  · intro h; subst h; rfl
  · intro hne hkeys
    obtain ⟨r, rest, rfl⟩ := List.exists_cons_of_ne_nil hne
    unfold write_csv_data
    rw [if_neg (by simp)]
    show Except.map (fun rows => (((r :: rest).headD []).map Prod.fst, rows))
        ((r :: rest).mapM (writeRowOut (((r :: rest).headD []).map Prod.fst))) = _
    rw [mapM_writeRowOut_ok _ _ hkeys]
    rfl

theorem write_csv_header_and_rows_witness :
    write_csv_data [[("a", "1"), ("b", "2")]] =
      Except.ok (["a", "b"], [["1", "2"]]) :=
  ((write_csv_header_and_rows [[("a", "1"), ("b", "2")]]).2 (by decide)
    (by decide)).trans rfl

/-! ## C10: invariants of every emitted inference record -/

theorem mkInferredRec_figma (idv cur ln fg : String) :
    dictGetD (mkInferredRec idv cur ln fg) "figma_text" "" = fg := by
  unfold mkInferredRec dictGetD
  rw [dictGet_cons, if_neg (by decide), dictGet_cons, if_neg (by decide),
    dictGet_cons, if_neg (by decide), dictGet_cons, if_neg (by decide),
    dictGet_cons, if_pos rfl]
  rfl

theorem mkInferredRec_layer (idv cur ln fg : String) :
    dictGetD (mkInferredRec idv cur ln fg) "layer_name" "" =
      if pyStrip ln ≠ "" then ln else "Content" := by
  unfold mkInferredRec dictGetD
  rw [dictGet_cons, if_neg (by decide), dictGet_cons, if_neg (by decide),
    dictGet_cons, if_neg (by decide), dictGet_cons, if_pos rfl]
  rfl

/-- The per-record invariant of the inference output. -/
def goodInferredRec (r : Record) : Prop :=
  pyStrip (dictGetD r "figma_text" "") ≠ "" ∧ dictGetD r "layer_name" "" ≠ ""

theorem emitRow_preserves_good (cur : String) (acc : List Record)
    (ln fg idv : String) (hacc : ∀ r ∈ acc, goodInferredRec r) :
    ∀ r ∈ emitRow cur acc ln fg idv, goodInferredRec r := by
  unfold emitRow
  by_cases h : pyStrip fg ≠ ""
  · rw [if_pos h]
    intro r hr
    rcases List.mem_append.mp hr with h1 | h2
    · exact hacc r h1
    · have : r = mkInferredRec idv cur ln fg := by
        cases List.mem_singleton.mp h2; rfl
      subst this
      constructor
      · rw [mkInferredRec_figma]; exact h
      · rw [mkInferredRec_layer]
        by_cases hln : pyStrip ln ≠ ""
        · rw [if_pos hln]; exact ne_empty_of_pyStrip_ne_empty hln
        · rw [if_neg hln]; decide
  · rw [if_neg h]; exact hacc

theorem processRow_preserves_good (preserve : Bool) (cur : String)
    (acc : List Record) (row : Row) (hacc : ∀ r ∈ acc, goodInferredRec r) :
    ∀ r ∈ processRow preserve cur acc row, goodInferredRec r := by
  unfold processRow
  by_cases hge : row.cells.length ≥ 2
  · rw [if_pos hge]
    by_cases hh : rowIsHeader row = true
    · rw [if_pos hh]; exact hacc
    · rw [if_neg hh]
      by_cases h3 : row.cells.length = 3
      · rw [if_pos h3]
        by_cases hid3 : looksLikeId (extractCell preserve (row.cells.getD 2 ⟨[]⟩)) = true
        · rw [if_pos hid3]; exact emitRow_preserves_good _ _ _ _ _ hacc
        · rw [if_neg hid3]
          by_cases hid1 : looksLikeId (extractCell preserve (row.cells.getD 0 ⟨[]⟩)) = true
          · rw [if_pos hid1]; exact emitRow_preserves_good _ _ _ _ _ hacc
          · rw [if_neg hid1]; exact emitRow_preserves_good _ _ _ _ _ hacc
      · rw [if_neg h3]
        by_cases h2 : row.cells.length = 2
        · rw [if_pos h2]; exact emitRow_preserves_good _ _ _ _ _ hacc
        · rw [if_neg h2]; exact emitRow_preserves_good _ _ _ _ _ hacc
  · rw [if_neg hge]; exact hacc

theorem walkStep_para_snd (preserve : Bool) (st : String × List Record)
    (p : Para) : (walkStep preserve st (DocElem.para p)).2 = st.2 := by
  show (if (containsSub (strToLower p.style) "heading" ||
        containsSub (strToLower p.style) "title") = true then
      (if pyStrip (paraText p) ≠ "" then (pyStrip (paraText p), st.2) else st)
    else st).2 = st.2
  split
  · split <;> rfl
  · rfl

theorem walkStep_table_snd (preserve : Bool) (st : String × List Record)
    (t : Table) :
    (walkStep preserve st (DocElem.table t)).2 =
      t.rows.foldl (processRow preserve st.1) st.2 := rfl

/-- C10: every record emitted by the schema inference has a `figma_text`
that is non-empty after trimming and a non-empty `layer_name`; when the
extracted label trims to empty, `layer_name` is the literal `"Content"`. -/
theorem inferred_records_invariants :
    (∀ (d : Doc) (preserve : Bool),
      ∀ r ∈ extract_word_document_to_csv_format d preserve,
        pyStrip (dictGetD r "figma_text" "") ≠ "" ∧
        dictGetD r "layer_name" "" ≠ "") ∧
    (∀ cur ln fg idv, pyStrip ln = "" →
      dictGetD (mkInferredRec idv cur ln fg) "layer_name" "" = "Content") := by
  constructor
  · intro d preserve
    unfold extract_word_document_to_csv_format
    have h := foldl_preserve (walkStep preserve)
      (fun st => ∀ r ∈ st.2, goodInferredRec r) d.body
      ("General Content", []) (by intro r hr; cases hr) ?_
    · exact h
    · intro st e _ hst
      cases e with
      | para p =>
          rw [walkStep_para_snd]
          exact hst
      | table t =>
          rw [walkStep_table_snd]
          exact foldl_preserve (processRow preserve st.1)
            (fun acc => ∀ r ∈ acc, goodInferredRec r) t.rows st.2 hst
            (fun acc row _ hacc => processRow_preserves_good preserve st.1 acc row hacc)
  · intro cur ln fg idv h
    rw [mkInferredRec_layer, if_neg (by simp [h])]

theorem inferred_records_invariants_witness :
    pyStrip (dictGetD (mkInferredRec "generated_1" "General Content" "Lbl" "Txt")
      "figma_text" "") ≠ "" ∧
    dictGetD (mkInferredRec "generated_1" "General Content" "Lbl" "Txt")
      "layer_name" "" ≠ "" :=
  inferred_records_invariants.1
    ⟨[DocElem.table ⟨[⟨[cellOfText "Lbl", cellOfText "Txt"]⟩]⟩]⟩ true
    (mkInferredRec "generated_1" "General Content" "Lbl" "Txt") (by decide)

/-! ## C8 / C9: the extracted id → text map -/

/-- A scanned row contributes to key `k`: at least three cells and the
trimmed ID-cell text equals `k`. -/
def rowMatches (k : String) (row : Row) : Bool :=
  decide (row.cells.length ≥ 3) &&
    (pyStrip (cellText (row.cells.getD 2 ⟨[]⟩)) == k)

theorem getLast?_cons_or {α : Type} (a : α) (l : List α) :
    (a :: l).getLast? = l.getLast?.or (some a) := by
  cases l with
  | nil => rfl
  | cons b l' =>
      rw [List.getLast?_cons_cons]
      obtain ⟨c, hc⟩ := Option.isSome_iff_exists.mp
        (List.getLast?_isSome.mpr (List.cons_ne_nil b l'))
      rw [hc]
      rfl

/-- `rowStep` with its lets unfolded, for case analysis. -/
theorem rowStep_eq (p : Bool) (m : List (String × String)) (r : Row) :
    rowStep p m r =
      if r.cells.length ≥ 3 then
        if pyStrip (cellText (r.cells.getD 2 ⟨[]⟩)) ≠ "" then
          dictSet m (pyStrip (cellText (r.cells.getD 2 ⟨[]⟩)))
            (extractCell p (r.cells.getD 1 ⟨[]⟩))
        else m
      else m := rfl

theorem foldl_tables_flat (p : Bool) :
    ∀ (tables : List Table) (m : List (String × String)),
      tables.foldl (fun m t => (t.rows.drop 1).foldl (rowStep p) m) m =
        (tables.flatMap (fun t => t.rows.drop 1)).foldl (rowStep p) m := by
  intro tables
  induction tables with
  | nil => intro m; rfl
  | cons t ts ih =>
      intro m
      rw [List.foldl_cons, List.flatMap_cons, List.foldl_append]
      exact ih _

theorem read_word_eq_scan (d : Doc) (p : Bool) :
    read_word_document_data d p = (scanRows d).foldl (rowStep p) [] :=
  foldl_tables_flat p (docTables d) []

theorem foldl_rowStep_get (p : Bool) (k : String) (hk : k ≠ "") :
    ∀ (rows : List Row) (m : List (String × String)),
      dictGet (rows.foldl (rowStep p) m) k =
        match (rows.filter (rowMatches k)).getLast? with
        | some row => some (extractCell p (row.cells.getD 1 ⟨[]⟩))
        | none => dictGet m k := by
  intro rows
  induction rows with
  | nil => intro m; rfl
  | cons r rs ih =>
      intro m
      rw [List.foldl_cons, ih (rowStep p m r), List.filter_cons]
      by_cases hq : rowMatches k r = true
      · have hq' : (decide (r.cells.length ≥ 3) &&
            (pyStrip (cellText (r.cells.getD 2 ⟨[]⟩)) == k)) = true := hq
        obtain ⟨h3, hid⟩ := Bool.and_eq_true_iff.mp hq'
        have h3' : r.cells.length ≥ 3 := of_decide_eq_true h3
        have hid' : pyStrip (cellText (r.cells.getD 2 ⟨[]⟩)) = k :=
          beq_iff_eq.mp hid
        rw [if_pos hq, getLast?_cons_or]
        cases hlast : (rs.filter (rowMatches k)).getLast? with
        | some row => rfl
        | none =>
            show dictGet (rowStep p m r) k = some _
            rw [rowStep_eq, if_pos h3', hid', if_pos hk]
            exact dictGet_dictSet_self m k _
      · rw [if_neg hq]
        cases hlast : (rs.filter (rowMatches k)).getLast? with
        | some row => rfl
        | none =>
            show dictGet (rowStep p m r) k = dictGet m k
            rw [rowStep_eq]
            by_cases h3 : r.cells.length ≥ 3
            · rw [if_pos h3]
              by_cases hid0 : pyStrip (cellText (r.cells.getD 2 ⟨[]⟩)) ≠ ""
              · rw [if_pos hid0]
                apply dictGet_dictSet_ne
                intro hkid
                apply hq
                show (decide (r.cells.length ≥ 3) &&
                  (pyStrip (cellText (r.cells.getD 2 ⟨[]⟩)) == k)) = true
                exact Bool.and_eq_true_iff.mpr
                  ⟨decide_eq_true h3, beq_iff_eq.mpr hkid.symm⟩
              · rw [if_neg hid0]
            · rw [if_neg h3]

theorem mem_foldl_rowStep (p : Bool) (k v : String) :
    ∀ (rows : List Row) (m : List (String × String)),
      (k, v) ∈ rows.foldl (rowStep p) m →
      (k, v) ∈ m ∨ (k ≠ "" ∧ ∃ row ∈ rows, row.cells.length ≥ 3 ∧
        pyStrip (cellText (row.cells.getD 2 ⟨[]⟩)) = k ∧
        v = extractCell p (row.cells.getD 1 ⟨[]⟩)) := by
  intro rows
  induction rows with
  | nil => intro m h; exact Or.inl h
  | cons r rs ih =>
      intro m h
      rw [List.foldl_cons] at h
      rcases ih (rowStep p m r) h with hm | ⟨hk, row, hrow, hprops⟩
      · rw [rowStep_eq] at hm
        by_cases h3 : r.cells.length ≥ 3
        · rw [if_pos h3] at hm
          by_cases hid0 : pyStrip (cellText (r.cells.getD 2 ⟨[]⟩)) ≠ ""
          · rw [if_pos hid0] at hm
            rcases mem_dictSet m _ _ _ hm with hmm | heq
            · exact Or.inl hmm
            · obtain ⟨hk1, hv1⟩ := Prod.mk.injEq .. ▸ heq
              refine Or.inr ⟨hk1 ▸ hid0, r, List.mem_cons_self _ _, h3, ?_, ?_⟩
              · rw [hk1]
              · rw [hv1]
          · rw [if_neg hid0] at hm; exact Or.inl hm
        · rw [if_neg h3] at hm; exact Or.inl hm
      · exact Or.inr ⟨hk, row, List.mem_cons_of_mem _ hrow, hprops⟩

/-- C8: the id → text map returned by `read_word_document_data` is built
only from rows at index ≥ 1 of each table (`scanRows`), and the value at a
non-empty key `k` is the Text-cell extraction of the *last* scanned row
(in scan order) having at least three cells and trimmed ID `k` —
last-write-wins for duplicated IDs. -/
theorem extracted_map_last_write_wins (d : Doc) (p : Bool) (k : String)
    (hk : k ≠ "") :
    dictGet (read_word_document_data d p) k =
      ((scanRows d).filter (rowMatches k)).getLast?.map
        (fun row => extractCell p (row.cells.getD 1 ⟨[]⟩)) := by
  rw [read_word_eq_scan, foldl_rowStep_get p k hk]
  cases hlast : ((scanRows d).filter (rowMatches k)).getLast? with
  | some row => rfl
  | none => rfl

theorem extracted_map_last_write_wins_witness :
    ("a1" : String) ≠ "" ∧
    dictGet (read_word_document_data
      ⟨[DocElem.table ⟨[headerRow,
        ⟨[cellOfText "L1", cellOfText "t1", cellOfText "a1"]⟩,
        ⟨[cellOfText "L2", cellOfText "t2", cellOfText "a1"]⟩]⟩]⟩ true)
      "a1" = some "t2" :=
  ⟨by decide,
    (extracted_map_last_write_wins
      ⟨[DocElem.table ⟨[headerRow,
        ⟨[cellOfText "L1", cellOfText "t1", cellOfText "a1"]⟩,
        ⟨[cellOfText "L2", cellOfText "t2", cellOfText "a1"]⟩]⟩]⟩ true
      "a1" (by decide)).trans (by decide)⟩

/-- C9: every entry of the extracted map comes from a scanned data row
(row index ≥ 1 of some table) with at least three cells whose trimmed
third-cell text equals the (non-empty) key; rows with fewer than three
cells or an empty ID cell contribute nothing. -/
theorem extracted_map_entry_source (d : Doc) (p : Bool) (k v : String)
    (hmem : (k, v) ∈ read_word_document_data d p) :
    k ≠ "" ∧ ∃ row ∈ scanRows d, row.cells.length ≥ 3 ∧
      pyStrip (cellText (row.cells.getD 2 ⟨[]⟩)) = k ∧
      v = extractCell p (row.cells.getD 1 ⟨[]⟩) := by
  rw [read_word_eq_scan] at hmem
  rcases mem_foldl_rowStep p k v (scanRows d) [] hmem with h | h
  · cases h
  · exact h

theorem extracted_map_entry_source_witness :
    ("a1" : String) ≠ "" ∧
    ∃ row ∈ scanRows
        ⟨[DocElem.table ⟨[headerRow,
          ⟨[cellOfText "L1", cellOfText "t1", cellOfText "a1"]⟩]⟩]⟩,
      row.cells.length ≥ 3 ∧
      pyStrip (cellText (row.cells.getD 2 ⟨[]⟩)) = "a1" ∧
      "t1" = extractCell true (row.cells.getD 1 ⟨[]⟩) :=
  extracted_map_entry_source
    ⟨[DocElem.table ⟨[headerRow,
      ⟨[cellOfText "L1", cellOfText "t1", cellOfText "a1"]⟩]⟩]⟩ true
    "a1" "t1" (by decide)

/-! ## C1: the disabled-formatting round trip -/

theorem empty_append_str (s : String) : "" ++ s = s := by
  cases s
  rfl

theorem cellText_cellOfText (s : String) :
    cellText (cellOfText s) = docxWriteText s := by
  show "" ++ docxWriteText s = docxWriteText s
  exact empty_append_str _

theorem extractCell_false (c : Cell) :
    extractCell false c = pyStrip (cellText c) := rfl

theorem dictGetD_dictSet_self (m : List (String × String)) (k v : String) :
    dictGetD (dictSet m k v) k "" = v := by
  unfold dictGetD
  rw [dictGet_dictSet_self]
  rfl

theorem filterMap_tbl_flat (grouped : List (String × List Record)) :
    (grouped.flatMap (fun gr =>
        if gr.2.isEmpty then ([] : List DocElem)
        else
          [DocElem.para ⟨"Heading 1", [⟨docxWriteText gr.1, false, false⟩]⟩,
           DocElem.table ⟨headerRow :: gr.2.map dataRow⟩,
           DocElem.para ⟨"Normal", []⟩])).filterMap
      (fun e => match e with | .table t => some t | .para _ => none) =
      grouped.filterMap (fun gr =>
        if gr.2.isEmpty then none
        else some (⟨headerRow :: gr.2.map dataRow⟩ : Table)) := by
  induction grouped with
  | nil => rfl
  | cons gr grs ih =>
      rw [List.flatMap_cons, List.filterMap_append, ih, List.filterMap_cons]
      by_cases h : gr.2.isEmpty
      · rw [if_pos h, if_pos h]
        rfl
      · rw [if_neg h, if_neg h]
        rfl

theorem docTables_create (grouped : List (String × List Record)) :
    docTables (create_word_document grouped) =
      grouped.filterMap (fun gr =>
        if gr.2.isEmpty then none
        else some (⟨headerRow :: gr.2.map dataRow⟩ : Table)) :=
  filterMap_tbl_flat grouped

theorem scan_filterMap (grouped : List (String × List Record)) :
    (grouped.filterMap (fun gr =>
        if gr.2.isEmpty then none
        else some (⟨headerRow :: gr.2.map dataRow⟩ : Table))).flatMap
      (fun t => t.rows.drop 1) =
      grouped.flatMap (fun gr =>
        if gr.2.isEmpty then [] else gr.2.map dataRow) := by
  induction grouped with
  | nil => rfl
  | cons gr grs ih =>
      rw [List.filterMap_cons, List.flatMap_cons]
      by_cases h : gr.2.isEmpty
      · rw [if_pos h, if_pos h, List.nil_append]
        exact ih
      · rw [if_neg h, if_neg h]
        show ((⟨headerRow :: gr.2.map dataRow⟩ : Table) ::
            grs.filterMap _).flatMap (fun t => t.rows.drop 1) = _
        rw [List.flatMap_cons, ih]
        rfl

theorem scanRows_create (grouped : List (String × List Record)) :
    scanRows (create_word_document grouped) =
      grouped.flatMap (fun gr =>
        if gr.2.isEmpty then [] else gr.2.map dataRow) := by
  unfold scanRows
  rw [docTables_create]
  exact scan_filterMap grouped

theorem addToGroup_mem (g : String) (r : Record) :
    ∀ (acc : List (String × List Record)) (gr : String × List Record),
      gr ∈ addToGroup acc g r → ∀ x ∈ gr.2,
      (∃ gr' ∈ acc, x ∈ gr'.2) ∨ x = r := by
  intro acc
  induction acc with
  | nil =>
      intro gr hgr x hx
      have hg : gr = (g, [r]) := by simpa [addToGroup] using hgr
      subst hg
      right
      simpa using hx
  | cons q rest ih =>
      obtain ⟨a, b⟩ := q
      intro gr hgr x hx
      by_cases ha : a = g
      · subst ha
        simp only [addToGroup, beq_self_eq_true, if_true] at hgr
        rcases List.mem_cons.mp hgr with hg | hmem
        · subst hg
          rcases List.mem_append.mp hx with hb | hr
          · exact Or.inl ⟨(a, b), List.mem_cons_self _ _, hb⟩
          · right; simpa using hr
        · exact Or.inl ⟨gr, List.mem_cons_of_mem _ hmem, hx⟩
      · simp only [addToGroup, beq_iff_eq, ha, if_false] at hgr
        rcases List.mem_cons.mp hgr with hg | hmem
        · subst hg
          exact Or.inl ⟨(a, b), List.mem_cons_self _ _, hx⟩
        · rcases ih gr hmem x hx with ⟨gr', hgr', hx'⟩ | hxr
          · exact Or.inl ⟨gr', List.mem_cons_of_mem _ hgr', hx'⟩
          · exact Or.inr hxr

theorem groupStep_eq (acc : List (String × List Record)) (row : Record) :
    groupStep acc row =
      if (decide (dictGetD row "group" "Unknown Group" ≠ "") &&
          decide (pyStrip (dictGetD row "group" "Unknown Group") ≠ "")) = true
      then addToGroup acc (dictGetD row "group" "Unknown Group") row
      else acc := rfl

theorem group_mem_data (data : List Record) :
    ∀ gr ∈ group_data_by_section data, ∀ x ∈ gr.2, x ∈ data := by
  unfold group_data_by_section
  refine foldl_preserve groupStep
    (fun acc => ∀ gr ∈ acc, ∀ x ∈ gr.2, x ∈ data) data []
    (by intro gr hgr; cases hgr) ?_
  intro acc row hrowmem hacc gr hgr x hx
  rw [groupStep_eq] at hgr
  by_cases hc : (decide (dictGetD row "group" "Unknown Group" ≠ "") &&
      decide (pyStrip (dictGetD row "group" "Unknown Group") ≠ "")) = true
  · rw [if_pos hc] at hgr
    rcases addToGroup_mem _ row acc gr hgr x hx with ⟨gr', hgr', hx'⟩ | hxr
    · exact hacc gr' hgr' x hx'
    · exact hxr ▸ hrowmem
  · rw [if_neg hc] at hgr
    exact hacc gr hgr x hx

theorem map_entry_from_record (data : List Record) (k v : String)
    (hmem : (k, v) ∈ read_word_document_data
      (create_word_document (group_data_by_section data)) false) :
    ∃ r ∈ data, pyStrip (docxWriteText (dictGetD r "id" "")) = k ∧
      v = pyStrip (docxWriteText (dictGetD r "figma_text" "")) := by
  rw [read_word_eq_scan] at hmem
  rcases mem_foldl_rowStep false k v _ [] hmem with h | ⟨hk, row, hrowmem, h3, hid, hv⟩
  · cases h
  rw [scanRows_create] at hrowmem
  rcases List.mem_flatMap.mp hrowmem with ⟨gr, hgr, hrow2⟩
  by_cases hemp : gr.2.isEmpty
  · rw [if_pos hemp] at hrow2; cases hrow2
  · rw [if_neg hemp] at hrow2
    rcases List.mem_map.mp hrow2 with ⟨r, hrmem, hrw⟩
    subst hrw
    have hidcell : cellText ((dataRow r).cells.getD 2 ⟨[]⟩) =
        docxWriteText (dictGetD r "id" "") := cellText_cellOfText _
    have hfigcell : cellText ((dataRow r).cells.getD 1 ⟨[]⟩) =
        docxWriteText (dictGetD r "figma_text" "") := cellText_cellOfText _
    refine ⟨r, group_mem_data data gr hgr r hrmem, ?_, ?_⟩
    · rw [hidcell] at hid
      exact hid
    · rw [hv, extractCell_false, hfigcell]

/-- C1 fails as stated, on two concrete inputs whose `figma_text` contains
no Markdown-significant character and whose group is non-empty, with the
id `a1` present in the loaded records and in the extracted map.
First, `figma_text = "\ra"`: the leading carriage return survives
`read_csv_data`'s `.strip(' \t"')` but is removed by the extractor's
`.strip()`, so the round trip returns `"a"`.  Second,
`figma_text = "a\rb"` (even unchanged by `.strip()`): python-docx stores
the interior `'\r'` as a break element that reads back as `'\n'`, so the
round trip returns `"a\nb"`.  In both cases no record of the reconciled
output carries the original `figma_text` for that id. -/
theorem figma_roundtrip_carriage_return_cex :
    ((∀ r ∈ read_csv_clean
        [[("id", "a1"), ("group", "G"), ("layer_name", "L"),
          ("figma_text", "a\rb")]],
      pyStrip (dictGetD r "group" "") ≠ "" ∧
      noMarkdownChars (dictGetD r "figma_text" "") = true ∧
      pyStrip (dictGetD r "figma_text" "") = dictGetD r "figma_text" "") ∧
    (∃ r ∈ read_csv_clean
        [[("id", "a1"), ("group", "G"), ("layer_name", "L"),
          ("figma_text", "a\rb")]],
      pyStrip (dictGetD r "id" "") = "a1") ∧
    (dictGet (read_word_document_data (create_word_document
        (group_data_by_section (read_csv_clean
          [[("id", "a1"), ("group", "G"), ("layer_name", "L"),
            ("figma_text", "a\rb")]]))) false) "a1").isSome = true ∧
    ¬ ∃ r ∈ read_csv_clean
        [[("id", "a1"), ("group", "G"), ("layer_name", "L"),
          ("figma_text", "a\rb")]],
      pyStrip (dictGetD r "id" "") = "a1" ∧
      dictGetD (updateRow (read_word_document_data (create_word_document
          (group_data_by_section (read_csv_clean
            [[("id", "a1"), ("group", "G"), ("layer_name", "L"),
              ("figma_text", "a\rb")]]))) false) r) "figma_text" "" =
        dictGetD r "figma_text" "") ∧
    (∀ r ∈ read_csv_clean
        [[("id", "a1"), ("group", "G"), ("layer_name", "L"),
          ("figma_text", "\ra")]],
      pyStrip (dictGetD r "group" "") ≠ "" ∧
      noMarkdownChars (dictGetD r "figma_text" "") = true) ∧
    (∃ r ∈ read_csv_clean
        [[("id", "a1"), ("group", "G"), ("layer_name", "L"),
          ("figma_text", "\ra")]],
      pyStrip (dictGetD r "id" "") = "a1") ∧
    (dictGet (read_word_document_data (create_word_document
        (group_data_by_section (read_csv_clean
          [[("id", "a1"), ("group", "G"), ("layer_name", "L"),
            ("figma_text", "\ra")]]))) false) "a1").isSome = true ∧
    ¬ ∃ r ∈ read_csv_clean
        [[("id", "a1"), ("group", "G"), ("layer_name", "L"),
          ("figma_text", "\ra")]],
      pyStrip (dictGetD r "id" "") = "a1" ∧
      dictGetD (updateRow (read_word_document_data (create_word_document
          (group_data_by_section (read_csv_clean
            [[("id", "a1"), ("group", "G"), ("layer_name", "L"),
              ("figma_text", "\ra")]]))) false) r) "figma_text" "" =
        dictGetD r "figma_text" "" := by decide

/-- C1 (amended): with formatting disabled, add the assumptions that every
loaded `id` and `figma_text` is unchanged by the document write/read
normalization (no carriage returns: python-docx stores `'\r'` as a break
element that reads back as `'\n'`) and that `figma_text` is unchanged by
whitespace trimming (the load path only strips spaces, tabs and quotes,
so other boundary whitespace would be lost to the extractor's
`.strip()`).  Then for every id present both in the loaded records and in
the extracted map, the reconciled output contains, for some record
carrying that id, a `figma_text` equal byte-for-byte to the original. -/
theorem figma_roundtrip_formatting_disabled (raw : List Record)
    (hgroup : ∀ r ∈ read_csv_clean raw,
      pyStrip (dictGetD r "group" "") ≠ "")
    (hmd : ∀ r ∈ read_csv_clean raw,
      noMarkdownChars (dictGetD r "figma_text" "") = true)
    (htrim : ∀ r ∈ read_csv_clean raw,
      pyStrip (dictGetD r "figma_text" "") = dictGetD r "figma_text" "")
    (hid_cr : ∀ r ∈ read_csv_clean raw,
      docxWriteText (dictGetD r "id" "") = dictGetD r "id" "")
    (hfig_cr : ∀ r ∈ read_csv_clean raw,
      docxWriteText (dictGetD r "figma_text" "") = dictGetD r "figma_text" "")
    (k : String)
    (hk_rec : ∃ r ∈ read_csv_clean raw, pyStrip (dictGetD r "id" "") = k)
    (hk_map : (dictGet (read_word_document_data (create_word_document
      (group_data_by_section (read_csv_clean raw))) false) k).isSome = true) :
    ∃ r ∈ read_csv_clean raw,
      pyStrip (dictGetD r "id" "") = k ∧
      updateRow (read_word_document_data (create_word_document
          (group_data_by_section (read_csv_clean raw))) false) r ∈
        update_csv_with_word_changes (read_csv_clean raw)
          (read_word_document_data (create_word_document
            (group_data_by_section (read_csv_clean raw))) false) ∧
      dictGetD (updateRow (read_word_document_data (create_word_document
          (group_data_by_section (read_csv_clean raw))) false) r)
        "figma_text" "" = dictGetD r "figma_text" "" := by
  set data := read_csv_clean raw with hdata
  set m := read_word_document_data
    (create_word_document (group_data_by_section data)) false with hmdef
  obtain ⟨v, hv⟩ := Option.isSome_iff_exists.mp hk_map
  have hkv : (k, v) ∈ m := by
    obtain ⟨pq, hfind, hsnd⟩ := Option.map_eq_some'.mp hv
    have hpmem : pq ∈ m := List.mem_of_find?_eq_some hfind
    have hpk : pq.1 = k := by
      have := List.find?_some hfind
      exact beq_iff_eq.mp this
    have : pq = (k, v) := Prod.ext hpk hsnd
    exact this ▸ hpmem
  obtain ⟨r, hrmem, hid, hfig⟩ := map_entry_from_record data k v hkv
  rw [hid_cr r hrmem] at hid
  rw [hfig_cr r hrmem] at hfig
  refine ⟨r, hrmem, hid, List.mem_map_of_mem _ hrmem, ?_⟩
  have hur : updateRow m r = dictSet r "figma_text" v := by
    show (match dictGet m (pyStrip (dictGetD r "id" "")) with
      | some v => dictSet r "figma_text" v
      | none => r) = dictSet r "figma_text" v
    rw [hid, hv]
  rw [hur, dictGetD_dictSet_self, hfig, htrim r hrmem]

theorem figma_roundtrip_formatting_disabled_witness :
    ∃ r ∈ read_csv_clean
        [[("id", "a1"), ("group", "G"), ("layer_name", "L"),
          ("figma_text", "Hello")]],
      pyStrip (dictGetD r "id" "") = "a1" ∧
      updateRow (read_word_document_data (create_word_document
          (group_data_by_section (read_csv_clean
            [[("id", "a1"), ("group", "G"), ("layer_name", "L"),
              ("figma_text", "Hello")]]))) false) r ∈
        update_csv_with_word_changes
          (read_csv_clean
            [[("id", "a1"), ("group", "G"), ("layer_name", "L"),
              ("figma_text", "Hello")]])
          (read_word_document_data (create_word_document
            (group_data_by_section (read_csv_clean
              [[("id", "a1"), ("group", "G"), ("layer_name", "L"),
                ("figma_text", "Hello")]]))) false) ∧
      dictGetD (updateRow (read_word_document_data (create_word_document
          (group_data_by_section (read_csv_clean
            [[("id", "a1"), ("group", "G"), ("layer_name", "L"),
              ("figma_text", "Hello")]]))) false) r) "figma_text" "" =
        dictGetD r "figma_text" "" :=
  figma_roundtrip_formatting_disabled
    [[("id", "a1"), ("group", "G"), ("layer_name", "L"),
      ("figma_text", "Hello")]]
    (by decide) (by decide) (by decide) (by decide) (by decide) "a1"
    (by decide) (by decide)

/-! ## C4: ordered-list marker normalization -/

/-- C4 fails as stated: in the paragraph whose runs are a bold `"1."`
followed by plain `" Buy milk"`, the paragraph is classified as an
ordered-list item with detected marker `"1."`, but the assembled
(formatted) text `"**1.** Buy milk"` does not start with the marker, so
nothing is stripped and the marker is prefixed anyway: the rendering is
`"1. **1.** Buy milk"` with the marker duplicated, not the marker-stripped
re-prefixed text the claim describes. -/
theorem ordered_list_marker_duplication_cex :
    classifyPara ⟨"Normal", [⟨"1.", true, false⟩, ⟨" Buy milk", false, false⟩]⟩ =
      (true, true, "1.") ∧
    ("1." : String).data.isPrefixOf
      (pyStrip (accumRuns [⟨"1.", true, false⟩, ⟨" Buy milk", false, false⟩])).data
      = false ∧
    paraRendered ⟨"Normal", [⟨"1.", true, false⟩, ⟨" Buy milk", false, false⟩]⟩ =
      "1. **1.** Buy milk" := by decide

/-- C4 (amended): for every paragraph classified as an ordered-list item
(trimmed text longer than 2 characters, not bullet-led, matching the
digits / single letter / roman-numeral marker pattern followed by `.` or
`)` and whitespace, case-insensitively), *whose assembled formatted text
still starts with the detected marker*, the extractor strips the marker
from the assembled text and re-prefixes it with the marker plus a single
space, so `"1. Buy milk"` re-renders as `"1. Buy milk"`.  When the
assembled text does not start with the marker (for instance the marker
run is bold), nothing is stripped and the marker is duplicated. -/
theorem ordered_list_marker_normalization (p : Para) (marker : String)
    (hlen : (pyStrip (paraText p)).length > 2)
    (hnb : startsWithBullet (pyStrip (paraText p)) = false)
    (hm : matchNumberedMarker (pyStrip (paraText p)) = some marker)
    (hpre : marker.data.isPrefixOf (pyStrip (accumRuns p.runs)).data = true) :
    paraRendered p =
      marker ++ " " ++
        pyStrip ⟨(pyStrip (accumRuns p.runs)).data.drop marker.data.length⟩ := by
  have ht0 : ¬ pyStrip (paraText p) = "" := by
    intro h0
    rw [h0] at hlen
    exact absurd hlen (by decide)
  have hcl : classifyPara p = (true, true, marker) := by
    show (if pyStrip (paraText p) = "" then ((false, false, "") : Bool × Bool × String)
      else if startsWithBullet (pyStrip (paraText p)) = true then
        (true, false, ⟨(pyStrip (paraText p)).data.take 1⟩)
      else if (pyStrip (paraText p)).length > 2 then
        match matchNumberedMarker (pyStrip (paraText p)) with
        | some m => (true, true, m)
        | none => (false, false, "")
      else (false, false, "")) = (true, true, marker)
    rw [if_neg ht0, if_neg (by simp [hnb]), if_pos hlen, hm]
  show adjustListPara (classifyPara p).1 (classifyPara p).2.1
    (classifyPara p).2.2 (accumRuns p.runs) = _
  rw [hcl]
  show marker ++ " " ++
      (if marker.data.isPrefixOf (pyStrip (accumRuns p.runs)).data = true then
        pyStrip ⟨(pyStrip (accumRuns p.runs)).data.drop marker.data.length⟩
      else pyStrip (accumRuns p.runs)) = _
  rw [if_pos hpre]

theorem ordered_list_marker_normalization_witness :
    paraRendered ⟨"Normal", [⟨"1. Buy milk", false, false⟩]⟩ = "1. Buy milk" :=
  (ordered_list_marker_normalization
    ⟨"Normal", [⟨"1. Buy milk", false, false⟩]⟩ "1."
    (by decide) (by decide) (by decide) (by decide)).trans (by decide)

end FigmaCopy
